import Mathlib

/-!
Verification of the subject-filtering / aggregation pipeline of
`analyze_space_opera.py` against its design specification.

Text is modelled as a list of Unicode code points (`List Nat`), with
ASCII semantics for case mapping, punctuation and whitespace (the
portions of Python string behaviour the program exercises).  Fallible
lookups return `Option`; the floating-point midpoint is modelled as an
exact rational, which coincides with binary64 arithmetic for year-sized
integers.
-/

/-- A Python string as a list of code points. -/
abbrev PyStr := List Nat

/-- Code points of a string literal. -/
def lit (s : String) : PyStr := s.toList.map Char.toNat

/-- Python str.lower on one code point (ASCII range). -/
def lowerN (n : Nat) : Nat := if 65 ≤ n ∧ n ≤ 90 then n + 32 else n

/-- Python str.upper on one code point (ASCII range). -/
def upperN (n : Nat) : Nat := if 97 ≤ n ∧ n ≤ 122 then n - 32 else n

/-- Python s.lower(). -/
def pyLower (s : PyStr) : PyStr := s.map lowerN

/-- Python s.upper(). -/
def pyUpper (s : PyStr) : PyStr := s.map upperN

/-- Whether the first list is an initial segment of the second. -/
def isPre : PyStr → PyStr → Bool
  | [], _ => true
  | x :: xs, y :: ys => x == y && isPre xs ys
  | _ :: _, [] => false

/-- Python's `pat in s` substring test. -/
def strIn (pat : PyStr) : PyStr → Bool
  | [] => pat.isEmpty
  | c :: rest => isPre pat (c :: rest) || strIn pat rest

/-- Worker for `replaceAll`: scans left to right; `k` counts characters of a
matched occurrence still to be skipped (no rescanning inside a match, exactly
as Python's `str.replace` with an empty replacement). -/
def repAux (pat : PyStr) : PyStr → Nat → PyStr
  | [], _ => []
  | c :: rest, 0 =>
      if !pat.isEmpty && isPre pat (c :: rest) then repAux pat rest (pat.length - 1)
      else c :: repAux pat rest 0
  | _ :: rest, k + 1 => repAux pat rest k

/-- Python's `s.replace(pat, "")`. -/
def replaceAll (pat s : PyStr) : PyStr := repAux pat s 0

/-- Membership in Python's `string.punctuation` (the 32 ASCII punctuation
characters, given by their code-point ranges). -/
def isPunct (n : Nat) : Bool :=
  (33 ≤ n && n ≤ 47) || (58 ≤ n && n ≤ 64) || (91 ≤ n && n ≤ 96) || (123 ≤ n && n ≤ 126)

/-- ASCII whitespace, as stripped by `str.strip()`. -/
def isSpace (n : Nat) : Bool := n == 32 || (9 ≤ n && n ≤ 13)

/-- Python removal of all punctuation characters, as done by translate with a deletion table of string.punctuation. -/
def removePunct (s : PyStr) : PyStr := s.filter (fun c => !isPunct c)

/-- Python s.strip(). -/
def pyStrip (s : PyStr) : PyStr :=
  ((s.dropWhile isSpace).reverse.dropWhile isSpace).reverse

def kwFictChar : PyStr := lit "(fictitious character)"

def kwImagPlace : PyStr := lit "(imaginary place)"

def kwNyt : PyStr := lit "nyt:"

def kwNYTimes : PyStr := lit "new york times"

def kwHugo1 : PyStr := lit "hugo award"

def kwHugo2 : PyStr := lit "hugo_award"

def kwAward : PyStr := lit "award:"

/-- The literal of the rule-5 check, with its original letter case. -/
def kwFictEng : PyStr := lit "Fiction in English, 1900- Texts"

def phrase1 : PyStr := lit "science fiction"

def phrase2 : PyStr := lit "science-fiction"

def phrase3 : PyStr := lit "fiction"

def phrase4 : PyStr := lit "space opera"

def phrase5 : PyStr := lit "general"

/-- The phrase-stripping loop of rule 6, in the source's order. -/
def stripGeneric (s : PyStr) : PyStr :=
  replaceAll phrase5 (replaceAll phrase4 (replaceAll phrase3
    (replaceAll phrase2 (replaceAll phrase1 s))))

/-- The function should_remove_subject of the source: the sequence of early-return
tests, as a disjunction. -/
def should_remove_subject (subject : PyStr) : Bool :=
  let sl := pyLower subject
  strIn kwFictChar sl || strIn kwImagPlace sl ||
    (strIn kwNyt sl || strIn kwNYTimes sl) ||
    (strIn kwHugo1 sl || strIn kwHugo2 sl || strIn kwAward sl) ||
    strIn kwFictEng sl ||
    (pyStrip (removePunct (stripGeneric sl))).isEmpty

/-- A bibliographic record, with the optional fields of the source's dicts. -/
structure Book where
  title : Option PyStr
  subject : Option (List PyStr)
  first_publish_year : Option Int
deriving DecidableEq

def STAR_WARS_KEYWORD : PyStr := lit "star wars"

/-- The function is_star_wars_book of the source. -/
def is_star_wars_book (book : Book) : Bool :=
  let title := pyLower (book.title.getD [])
  let subjects := (book.subject.getD []).map pyLower
  strIn STAR_WARS_KEYWORD title || subjects.any (fun s => strIn STAR_WARS_KEYWORD s)

/-- The function filter_subjects of the source, as the accumulating loop it is written as. -/
def filter_subjects (book : Book) : List PyStr :=
  (book.subject.getD []).foldl
    (fun filtered s => if should_remove_subject s then filtered else filtered ++ [s]) []

/-- One defaultdict update: bump the count and append the year for a key,
inserting the key at the end on first sight (dict insertion order). -/
def updateEntry : List (PyStr × Nat × List Int) → PyStr → Int → List (PyStr × Nat × List Int)
  | [], s, y => [(s, 1, [y])]
  | (k, c, ys) :: rest, s, y =>
      if k = s then (k, c + 1, ys ++ [y]) :: rest
      else (k, c, ys) :: updateEntry rest s y

/-- The body of the accumulation loop of `analyze_subjects` for one book:
`if not year: continue` skips a missing year and also the year `0`. -/
def bookStep (m : List (PyStr × Nat × List Int)) (book : Book) :
    List (PyStr × Nat × List Int) :=
  match book.first_publish_year with
  | none => m
  | some year =>
      if year = 0 then m
      else (filter_subjects book).foldl (fun m s => updateEntry m s year) m

/-- The `subject_data` mapping after the first loop of `analyze_subjects`. -/
def accumulate (books : List Book) : List (PyStr × Nat × List Int) :=
  books.foldl bookStep []

/-- One value of the result mapping of `analyze_subjects`. -/
structure SubjectStat where
  count : Nat
  min_year : Int
  max_year : Int
  avg_year : ℚ
deriving DecidableEq

/-- Python's `min` on a list (never called on `[]` by the program). -/
def listMin : List Int → Int
  | [] => 0
  | x :: rest => rest.foldl min x

/-- Python's `max` on a list (never called on `[]` by the program). -/
def listMax : List Int → Int
  | [] => 0
  | x :: rest => rest.foldl max x

/-- The stat record built by the second loop of `analyze_subjects`. -/
def mkStat (c : Nat) (ys : List Int) : SubjectStat :=
  { count := c, min_year := listMin ys, max_year := listMax ys,
    avg_year := ((listMin ys + listMax ys : Int) : ℚ) / 2 }

/-- The function analyze_subjects of the source: accumulate, then keep subjects with
count at least 3, in insertion order. -/
def analyze_subjects (books : List Book) : List (PyStr × SubjectStat) :=
  (accumulate books).filterMap
    (fun e => if 3 ≤ e.2.1 then some (e.1, mkStat e.2.1 e.2.2) else none)

/-- Dict lookup in the running `subject_data` mapping. -/
def lookupAcc : List (PyStr × Nat × List Int) → PyStr → Option (Nat × List Int)
  | [], _ => none
  | (k, c, ys) :: rest, s => if k = s then some (c, ys) else lookupAcc rest s

/-- Dict lookup in the result of `analyze_subjects`. -/
def lookupStat : List (PyStr × SubjectStat) → PyStr → Option SubjectStat
  | [], _ => none
  | (k, st) :: rest, s => if k = s then some st else lookupStat rest s

/-- Count and year list accumulated for a subject (`(0, [])` if never seen). -/
def accEntry (books : List Book) (s : PyStr) : Nat × List Int :=
  (lookupAcc (accumulate books) s).getD (0, [])

/-- The accumulated occurrence count of a subject. -/
def accCount (books : List Book) (s : PyStr) : Nat := (accEntry books s).1

/-- The rendered artifact of `create_bar_chart`: the title and the rows,
in their plotted (sorted) order. -/
structure Chart where
  chartTitle : PyStr
  entries : List (PyStr × SubjectStat)

/-- The sort key of `create_bar_chart`: ascending `avg_year`. -/
def statLE (a b : PyStr × SubjectStat) : Prop := a.2.avg_year ≤ b.2.avg_year

instance : DecidableRel statLE := fun a b => inferInstanceAs (Decidable (_ ≤ _))

instance : IsTotal (PyStr × SubjectStat) statLE := ⟨fun a b => le_total _ _⟩

instance : IsTrans (PyStr × SubjectStat) statLE := ⟨fun _ _ _ h1 h2 => le_trans h1 h2⟩

def msgNoPlot (title : PyStr) : PyStr := lit "No subjects to plot for " ++ title

def msgSaved (filename : PyStr) : PyStr := lit "Saved chart to " ++ filename

/-- The function create_bar_chart of the source: its console output paired with the
chart it renders (`none` when rendering is skipped). -/
def create_bar_chart (subject_data : List (PyStr × SubjectStat)) (title filename : PyStr) :
    List PyStr × Option Chart :=
  let sorted_subjects := List.insertionSort statLE subject_data
  if sorted_subjects.isEmpty then ([msgNoPlot title], none)
  else ([msgSaved filename], some { chartTitle := title, entries := sorted_subjects })

/-! ### Elementary string lemmas -/

theorem lowerN_upperN (n : Nat) : lowerN (upperN n) = lowerN n := by
  simp only [lowerN, upperN]
  split_ifs <;> omega

theorem pyLower_pyUpper (s : PyStr) : pyLower (pyUpper s) = pyLower s := by
  simp only [pyLower, pyUpper, List.map_map]
  exact List.map_congr_left (fun n _ => lowerN_upperN n)

theorem lowerN_ne_F (n : Nat) : (70 == lowerN n) = false := by
  simp only [lowerN, beq_eq_false_iff_ne, ne_eq]
  split_ifs <;> omega

/-- No string of the form `s.lower()` contains the mixed-case rule-5 literal:
its first code point is `F` (70), which `lower` never produces. -/
theorem strIn_kwFictEng_lower (s : PyStr) : strIn kwFictEng (pyLower s) = false := by
  have hpat : kwFictEng = 70 :: (lit "iction in English, 1900- Texts") := by decide
  induction s with
  | nil => decide
  | cons c cs ih =>
      show strIn kwFictEng (lowerN c :: pyLower cs) = false
      rw [strIn, hpat, isPre, lowerN_ne_F c, Bool.false_and, Bool.false_or, ← hpat, ih]

/-! ### Subject filter lemmas -/

theorem foldl_keep_eq_filter (p : PyStr → Bool) (l : List PyStr) :
    ∀ a : List PyStr,
      l.foldl (fun acc s => if p s then acc else acc ++ [s]) a = a ++ l.filter (fun s => !p s) := by
  induction l with
  | nil => intro a; simp
  | cons s l ih =>
      intro a
      simp only [List.foldl_cons, List.filter_cons]
      by_cases h : p s
      · simp [h, ih a]
      · simp [h, ih (a ++ [s])]

theorem filter_subjects_eq (book : Book) :
    filter_subjects book =
      (book.subject.getD []).filter (fun s => !should_remove_subject s) := by
  unfold filter_subjects
  simpa using foldl_keep_eq_filter should_remove_subject (book.subject.getD []) []

/-! ### Claim theorems: C1, C5, C6, C8 -/

/-- C1: the claim says `shouldRemove` returns true on a case-insensitive
match of the literal generic catalog tag "Fiction in English, 1900- Texts".
The code instead tests the mixed-case literal for containment in the
lowercased subject, which can never succeed, so the rule is dead: the
function returns false even on the literal itself, and the rule-5 test
fails for every subject whatsoever. -/
theorem C1_rule5_dead :
    should_remove_subject kwFictEng = false ∧
      ∀ s : PyStr, strIn kwFictEng (pyLower s) = false :=
  ⟨by decide, strIn_kwFictEng_lower⟩

/-- C5: a record is classified primary-franchise iff the keyword
"star wars" occurs, case-insensitively, in its title or in some raw
subject tag; a missing title behaves as the empty text, so the Boolean
classification is total and assigns each record to exactly one group. -/
theorem C5_classifier (book : Book) :
    (is_star_wars_book book = true ↔
      strIn STAR_WARS_KEYWORD (pyLower (book.title.getD [])) = true ∨
        ∃ s ∈ book.subject.getD [], strIn STAR_WARS_KEYWORD (pyLower s) = true) ∧
      is_star_wars_book book =
        is_star_wars_book { book with title := some (book.title.getD []) } := by
  constructor
  · simp [is_star_wars_book, List.any_map, List.any_eq_true, Function.comp]
  · rfl

/-- C5 witness: a record titled "Star Wars: Thrawn" is primary-franchise;
a record titled "Dune" tagged only "Space opera" is not. -/
theorem C5_witness :
    is_star_wars_book ⟨some (lit "Star Wars: Thrawn"), some [], none⟩ = true ∧
      is_star_wars_book ⟨some (lit "Dune"), some [lit "Space opera"], none⟩ = false :=
  ⟨(C5_classifier ⟨some (lit "Star Wars: Thrawn"), some [], none⟩).1.mpr
      (Or.inl (by decide)),
    by decide⟩

/-- C6: the removal decision is invariant under changing the letter case of
its input: `shouldRemove(s) = shouldRemove(s.upper())`. -/
theorem C6_case_insensitive (s : PyStr) :
    should_remove_subject s = should_remove_subject (pyUpper s) := by
  simp only [should_remove_subject, pyLower_pyUpper]

/-- C8: `filterSubjects` is exactly the subsequence of the record's subject
tags on which `shouldRemove` is false, in the original order; a missing
subject list yields the empty sequence. -/
theorem C8_filter_subjects (book : Book) :
    filter_subjects book =
        (book.subject.getD []).filter (fun s => !should_remove_subject s) ∧
      (filter_subjects book).Sublist (book.subject.getD []) ∧
      (book.subject = none → filter_subjects book = []) := by
  refine ⟨filter_subjects_eq book, ?_, ?_⟩
  · rw [filter_subjects_eq book]; exact List.filter_sublist _
  · intro h; simp [filter_subjects, h]

/-- C8 witness: on a record with a missing subject list, and on a concrete
two-subject record, `filterSubjects` yields what the theorem states. -/
theorem C8_witness :
    filter_subjects ⟨none, none, none⟩ = [] ∧
      filter_subjects ⟨none, some [lit "Space Opera", lit "Robots"], none⟩ =
        [lit "Robots"] := by
  refine ⟨(C8_filter_subjects ⟨none, none, none⟩).2.2 rfl, ?_⟩
  rw [(C8_filter_subjects ⟨none, some [lit "Space Opera", lit "Robots"], none⟩).1]
  decide

/-! ### Aggregation machinery: the accumulation loop as a stream of
(subject, year) contributions -/

/-- The (subject, year) contributions of one record, in subject order:
empty when the year is missing or falsy. -/
def pairsOf (book : Book) : List (PyStr × Int) :=
  match book.first_publish_year with
  | none => []
  | some year => if year = 0 then [] else (filter_subjects book).map (fun s => (s, year))

/-- All contributions of a record sequence, in processing order. -/
def pairs : List Book → List (PyStr × Int)
  | [] => []
  | bk :: books => pairsOf bk ++ pairs books

/-- One dict update driven by a contribution. -/
def pairStep (m : List (PyStr × Nat × List Int)) (p : PyStr × Int) :
    List (PyStr × Nat × List Int) :=
  updateEntry m p.1 p.2

/-- Replay of a contribution stream into the dict. -/
def buildMap (ps : List (PyStr × Int)) : List (PyStr × Nat × List Int) :=
  ps.foldl pairStep []

/-- The years recorded for one subject in a contribution stream, in order. -/
def keyYears (ps : List (PyStr × Int)) (s : PyStr) : List Int :=
  (ps.filter (fun p => decide (p.1 = s))).map (fun p => p.2)

theorem bookStep_eq (m : List (PyStr × Nat × List Int)) (bk : Book) :
    bookStep m bk = (pairsOf bk).foldl pairStep m := by
  unfold bookStep pairsOf
  match bk.first_publish_year with
  | none => rfl
  | some year =>
      by_cases h : year = 0
      · simp [h]
      · simp only [h, if_false, List.foldl_map]
        rfl

theorem accumulate_eq_buildMap (books : List Book) :
    accumulate books = buildMap (pairs books) := by
  suffices h : ∀ (bks : List Book) (m : List (PyStr × Nat × List Int)),
      bks.foldl bookStep m = (pairs bks).foldl pairStep m by
    exact h books []
  intro bks
  induction bks with
  | nil => intro m; rfl
  | cons bk rest ih =>
      intro m
      simp only [List.foldl_cons, pairs, List.foldl_append, bookStep_eq, ih]

/-! ### Lookup lemmas for the dict update -/

theorem lookupAcc_updateEntry_ne (s : PyStr) (y : Int) (k : PyStr) (hk : k ≠ s) :
    ∀ m : List (PyStr × Nat × List Int),
      lookupAcc (updateEntry m s y) k = lookupAcc m k := by
  intro m
  induction m with
  | nil =>
      simp only [updateEntry, lookupAcc]
      exact if_neg (fun h => hk h.symm)
  | cons hd rest ih =>
      obtain ⟨k0, c0, ys0⟩ := hd
      by_cases h0 : k0 = s
      · subst h0
        have hk0 : k0 ≠ k := fun h => hk h.symm
        simp [updateEntry, lookupAcc, hk0]
      · by_cases h1 : k0 = k
        · simp [updateEntry, lookupAcc, h0, h1, hk]
        · simp [updateEntry, lookupAcc, h0, h1, ih]

theorem lookupAcc_updateEntry_none (s : PyStr) (y : Int) :
    ∀ m : List (PyStr × Nat × List Int), lookupAcc m s = none →
      lookupAcc (updateEntry m s y) s = some (1, [y]) := by
  intro m
  induction m with
  | nil => intro _; simp [updateEntry, lookupAcc]
  | cons hd rest ih =>
      obtain ⟨k0, c0, ys0⟩ := hd
      intro h
      by_cases h0 : k0 = s
      · simp [lookupAcc, h0] at h
      · simp only [lookupAcc, h0, if_false] at h
        simp [updateEntry, lookupAcc, h0, ih h]

theorem lookupAcc_updateEntry_some (s : PyStr) (y : Int) (c : Nat) (ys : List Int) :
    ∀ m : List (PyStr × Nat × List Int), lookupAcc m s = some (c, ys) →
      lookupAcc (updateEntry m s y) s = some (c + 1, ys ++ [y]) := by
  intro m
  induction m with
  | nil => intro h; simp [lookupAcc] at h
  | cons hd rest ih =>
      obtain ⟨k0, c0, ys0⟩ := hd
      intro h
      by_cases h0 : k0 = s
      · subst h0
        simp only [lookupAcc, if_pos rfl] at h
        obtain ⟨h1, h2⟩ := Prod.mk.injEq .. ▸ Option.some.inj h
        simp [updateEntry, lookupAcc, h1, h2]
      · simp only [lookupAcc, h0, if_false] at h
        simp [updateEntry, lookupAcc, h0, ih h]

/-! ### The dict after replaying a contribution stream -/

theorem keyYears_append (ps qs : List (PyStr × Int)) (s : PyStr) :
    keyYears (ps ++ qs) s = keyYears ps s ++ keyYears qs s := by
  simp [keyYears, List.filter_append]

theorem keyYears_singleton (p : PyStr × Int) (s : PyStr) :
    keyYears [p] s = if p.1 = s then [p.2] else [] := by
  by_cases h : p.1 = s <;> simp [keyYears, h]

theorem buildMap_append_singleton (ps : List (PyStr × Int)) (p : PyStr × Int) :
    buildMap (ps ++ [p]) = updateEntry (buildMap ps) p.1 p.2 := by
  simp [buildMap, List.foldl_append, pairStep]

/-- The dict built from a contribution stream records, for every key present,
its number of contributions together with their years in order. -/
theorem lookupAcc_buildMap (ps : List (PyStr × Int)) :
    ∀ s : PyStr,
      lookupAcc (buildMap ps) s =
        if keyYears ps s = [] then none
        else some ((keyYears ps s).length, keyYears ps s) := by
  induction ps using List.reverseRecOn with
  | nil => intro s; simp [buildMap, lookupAcc, keyYears]
  | append_singleton ps p ih =>
      intro s
      rw [buildMap_append_singleton, keyYears_append, keyYears_singleton]
      by_cases hp : p.1 = s
      · subst hp
        by_cases h0 : keyYears ps p.1 = []
        · have hnone : lookupAcc (buildMap ps) p.1 = none := by rw [ih]; simp [h0]
          rw [lookupAcc_updateEntry_none p.1 p.2 (buildMap ps) hnone]
          simp [h0]
        · have hsome : lookupAcc (buildMap ps) p.1 =
              some ((keyYears ps p.1).length, keyYears ps p.1) := by rw [ih]; simp [h0]
          rw [lookupAcc_updateEntry_some p.1 p.2 _ _ (buildMap ps) hsome]
          simp
      · rw [lookupAcc_updateEntry_ne p.1 p.2 s (fun h => hp h.symm), ih]
        simp [hp]

/-! ### Key uniqueness of the dict, and the thresholded result -/

/-- The keys of the running dict. -/
def keysOf (m : List (PyStr × Nat × List Int)) : List PyStr := m.map (fun e => e.1)

theorem lookupAcc_eq_none_of_not_mem (s : PyStr) :
    ∀ m : List (PyStr × Nat × List Int), s ∉ keysOf m → lookupAcc m s = none := by
  intro m
  induction m with
  | nil => intro _; rfl
  | cons hd rest ih =>
      obtain ⟨k0, c0, ys0⟩ := hd
      intro h
      simp only [keysOf, List.map_cons, List.mem_cons, not_or] at h
      have hk0 : k0 ≠ s := fun he => h.1 he.symm
      have : s ∉ keysOf rest := by simpa [keysOf] using h.2
      simp [lookupAcc, hk0, ih this]

theorem keysOf_updateEntry_mem (s : PyStr) (y : Int) :
    ∀ m : List (PyStr × Nat × List Int), s ∈ keysOf m →
      keysOf (updateEntry m s y) = keysOf m := by
  intro m
  induction m with
  | nil => intro h; simp [keysOf] at h
  | cons hd rest ih =>
      obtain ⟨k0, c0, ys0⟩ := hd
      intro h
      by_cases h0 : k0 = s
      · simp [updateEntry, keysOf, h0]
      · have hrest : s ∈ keysOf rest := by
          simp only [keysOf, List.map_cons, List.mem_cons] at h
          exact h.resolve_left (fun he => h0 he.symm)
        have ih' := ih hrest
        simp only [updateEntry, if_neg h0, keysOf, List.map_cons] at ih' ⊢
        rw [ih']

theorem keysOf_updateEntry_not_mem (s : PyStr) (y : Int) :
    ∀ m : List (PyStr × Nat × List Int), s ∉ keysOf m →
      keysOf (updateEntry m s y) = keysOf m ++ [s] := by
  intro m
  induction m with
  | nil => intro _; simp [updateEntry, keysOf]
  | cons hd rest ih =>
      obtain ⟨k0, c0, ys0⟩ := hd
      intro h
      simp only [keysOf, List.map_cons, List.mem_cons, not_or] at h
      have h0 : k0 ≠ s := fun he => h.1 he.symm
      have hrest : s ∉ keysOf rest := by simpa [keysOf] using h.2
      have ih' := ih hrest
      simp only [updateEntry, if_neg h0, keysOf, List.map_cons] at ih' ⊢
      rw [ih']
      simp

theorem nodup_keysOf_updateEntry (s : PyStr) (y : Int)
    (m : List (PyStr × Nat × List Int)) (h : (keysOf m).Nodup) :
    (keysOf (updateEntry m s y)).Nodup := by
  by_cases hm : s ∈ keysOf m
  · rw [keysOf_updateEntry_mem s y m hm]; exact h
  · rw [keysOf_updateEntry_not_mem s y m hm]
    simp [List.nodup_append, h, hm]

theorem nodup_keysOf_buildMap (ps : List (PyStr × Int)) :
    (keysOf (buildMap ps)).Nodup := by
  induction ps using List.reverseRecOn with
  | nil => simp [buildMap, keysOf]
  | append_singleton ps p ih =>
      rw [buildMap_append_singleton]
      exact nodup_keysOf_updateEntry p.1 p.2 _ ih

/-- The filterMap of `analyze_subjects` applied to a dict. -/
def thresh (m : List (PyStr × Nat × List Int)) : List (PyStr × SubjectStat) :=
  m.filterMap (fun e => if 3 ≤ e.2.1 then some (e.1, mkStat e.2.1 e.2.2) else none)

theorem analyze_subjects_eq_thresh (books : List Book) :
    analyze_subjects books = thresh (accumulate books) := rfl

theorem lookupStat_thresh_none (s : PyStr) :
    ∀ m : List (PyStr × Nat × List Int), s ∉ keysOf m →
      lookupStat (thresh m) s = none := by
  intro m
  induction m with
  | nil => intro _; rfl
  | cons hd rest ih =>
      obtain ⟨k0, c0, ys0⟩ := hd
      intro h
      simp only [keysOf, List.map_cons, List.mem_cons, not_or] at h
      have h0 : k0 ≠ s := fun he => h.1 he.symm
      have hrest : s ∉ keysOf rest := by simpa [keysOf] using h.2
      by_cases hc : 3 ≤ c0
      · simp [thresh, List.filterMap_cons, hc, lookupStat, h0]
        exact ih hrest
      · simp [thresh, List.filterMap_cons, hc]
        exact ih hrest

theorem lookupStat_thresh (s : PyStr) :
    ∀ m : List (PyStr × Nat × List Int), (keysOf m).Nodup →
      lookupStat (thresh m) s =
        (lookupAcc m s).bind
          (fun e => if 3 ≤ e.1 then some (mkStat e.1 e.2) else none) := by
  intro m
  induction m with
  | nil => intro _; rfl
  | cons hd rest ih =>
      obtain ⟨k0, c0, ys0⟩ := hd
      intro hnd
      have hnd' : (keysOf rest).Nodup := by
        simpa [keysOf] using hnd.of_cons
      have hk0 : k0 ∉ keysOf rest := by
        have := hnd
        simp only [keysOf, List.map_cons, List.nodup_cons] at this
        simpa [keysOf] using this.1
      by_cases h0 : k0 = s
      · subst h0
        by_cases hc : 3 ≤ c0
        · simp [thresh, List.filterMap_cons, hc, lookupStat, lookupAcc]
        · have hnone := lookupStat_thresh_none k0 rest hk0
          simp only [thresh] at hnone
          simp [thresh, List.filterMap_cons, hc, lookupAcc, hnone]
      · by_cases hc : 3 ≤ c0
        · simp [thresh, List.filterMap_cons, hc, lookupStat, lookupAcc, h0]
          exact ih hnd'
        · simp [thresh, List.filterMap_cons, hc, lookupAcc, h0]
          exact ih hnd'

/-! ### The master formula for the aggregation result -/

/-- What `analyze_subjects` reports for a subject: present exactly when the
accumulated contribution count reaches 3, with stats over the contribution
years. -/
theorem lookupStat_analyze (books : List Book) (s : PyStr) :
    lookupStat (analyze_subjects books) s =
      if 3 ≤ (keyYears (pairs books) s).length
      then some (mkStat (keyYears (pairs books) s).length (keyYears (pairs books) s))
      else none := by
  rw [analyze_subjects_eq_thresh, accumulate_eq_buildMap,
    lookupStat_thresh s _ (nodup_keysOf_buildMap _), lookupAcc_buildMap]
  by_cases h0 : keyYears (pairs books) s = []
  · simp [h0]
  · simp [h0]

theorem accEntry_eq (books : List Book) (s : PyStr) :
    accEntry books s =
      ((keyYears (pairs books) s).length, keyYears (pairs books) s) := by
  unfold accEntry
  rw [accumulate_eq_buildMap, lookupAcc_buildMap]
  by_cases h0 : keyYears (pairs books) s = [] <;> simp [h0]

theorem accCount_eq (books : List Book) (s : PyStr) :
    accCount books s = (keyYears (pairs books) s).length := by
  rw [accCount, accEntry_eq]

/-! ### Occurrence counting -/

theorem keyYears_cons (p : PyStr × Int) (ps : List (PyStr × Int)) (s : PyStr) :
    keyYears (p :: ps) s = if p.1 = s then p.2 :: keyYears ps s else keyYears ps s := by
  by_cases h : p.1 = s <;> simp [keyYears, List.filter_cons, h]

theorem keyYears_map_pair (fs : List PyStr) (y : Int) (s : PyStr) :
    keyYears (fs.map (fun t => (t, y))) s = List.replicate (fs.count s) y := by
  induction fs with
  | nil => simp [keyYears]
  | cons t fs ih =>
      rw [List.map_cons, keyYears_cons]
      by_cases h : t = s
      · subst h
        simp [List.count_cons, ih, List.replicate_succ]
      · simp [List.count_cons, h, ih]

theorem pairs_append (l1 l2 : List Book) : pairs (l1 ++ l2) = pairs l1 ++ pairs l2 := by
  induction l1 with
  | nil => rfl
  | cons bk l1 ih => simp [pairs, ih]

theorem keyYears_pairsOf (bk : Book) (y : Int) (s : PyStr)
    (hy : bk.first_publish_year = some y) (h0 : y ≠ 0) :
    keyYears (pairsOf bk) s = List.replicate ((filter_subjects bk).count s) y := by
  simp [pairsOf, hy, h0, keyYears_map_pair]

theorem pairsOf_eq_nil (bk : Book)
    (h : bk.first_publish_year = none ∨ bk.first_publish_year = some 0) :
    pairsOf bk = [] := by
  rcases h with h | h <;> simp [pairsOf, h]

/-- The total number of occurrences of a subject across the filtered
subject lists of the records with a truthy publication year. -/
def totalOcc : List Book → PyStr → Nat
  | [], _ => 0
  | bk :: books, s =>
      (match bk.first_publish_year with
       | none => 0
       | some y => if y = 0 then 0 else (filter_subjects bk).count s) + totalOcc books s

theorem totalOcc_eq (books : List Book) (s : PyStr) :
    totalOcc books s = (keyYears (pairs books) s).length := by
  induction books with
  | nil => simp [totalOcc, pairs, keyYears]
  | cons bk books ih =>
      rw [totalOcc, pairs, keyYears_append, List.length_append, ih]
      congr 1
      match hy : bk.first_publish_year with
      | none => simp [pairsOf, hy, keyYears]
      | some y =>
          by_cases h0 : y = 0
          · simp [pairsOf, hy, h0, keyYears]
          · simp [pairsOf, hy, h0, keyYears_map_pair]

/-! ### Minimum and maximum of a year list -/

theorem foldl_min_le : ∀ (rest : List Int) (x : Int), rest.foldl min x ≤ x := by
  intro rest
  induction rest with
  | nil => intro x; exact le_refl x
  | cons y rest ih => intro x; exact le_trans (ih (min x y)) (min_le_left x y)

theorem le_foldl_max : ∀ (rest : List Int) (x : Int), x ≤ rest.foldl max x := by
  intro rest
  induction rest with
  | nil => intro x; exact le_refl x
  | cons y rest ih => intro x; exact le_trans (le_max_left x y) (ih (max x y))

theorem listMin_le_listMax (ys : List Int) (h : ys ≠ []) : listMin ys ≤ listMax ys := by
  match ys with
  | [] => exact absurd rfl h
  | x :: rest =>
      exact le_trans (foldl_min_le rest x) (le_foldl_max rest x)

/-! ### Concrete records for counterexamples and witnesses -/

def robotsS : PyStr := lit "Robots"

def bkDup : Book := ⟨none, some [robotsS, robotsS, robotsS], some 1990⟩

def bkZero : Book := ⟨none, some [robotsS], some 0⟩

def bkNoYear : Book := ⟨none, some [robotsS], none⟩

def bk1977 : Book := ⟨none, some [robotsS], some 1977⟩

def bk1980 : Book := ⟨none, some [robotsS], some 1980⟩

def bk1983 : Book := ⟨none, some [robotsS], some 1983⟩

def bks2 : List Book := [bk1977, bk1980]

def bks3 : List Book := [bk1977, bk1980, bk1983]

/-- The number of records that contribute a year for a subject: records with
a truthy year whose filtered subject list contains the subject. -/
def contribRecords (books : List Book) (s : PyStr) : Nat :=
  (books.filter (fun bk =>
    (match bk.first_publish_year with
     | none => false
     | some y => decide (y ≠ 0)) && decide (s ∈ filter_subjects bk))).length

/-! ### Claim theorems: C2, C3, C4, C7 -/

/-- C2 counterexample: a single record that lists the same subject three
times yields a result entry with count 3, while only one record contributes
a year for that subject — so the recorded count is not the number of
contributing records. -/
theorem C2_counterexample :
    (lookupStat (analyze_subjects [bkDup]) robotsS).map SubjectStat.count = some 3 ∧
      contribRecords [bkDup] robotsS = 1 ∧
      (lookupStat (analyze_subjects [bkDup]) robotsS).map SubjectStat.count ≠
        some (contribRecords [bkDup] robotsS) := by
  refine ⟨by decide, by decide, by decide⟩

/-- C2 amended: the recorded count of every subject in the result equals the
total number of occurrences of that subject across the filtered subject
lists of the records with a truthy year (one per listing, so equal to the
number of contributing records whenever no record lists a subject twice);
and a record lacking a year never contributes: deleting it from the input
leaves the result unchanged. -/
theorem C2_amended_count :
    (∀ (books : List Book) (s : PyStr) (st : SubjectStat),
        lookupStat (analyze_subjects books) s = some st →
          st.count = totalOcc books s) ∧
      ∀ (l1 l2 : List Book) (bk : Book), bk.first_publish_year = none →
        analyze_subjects (l1 ++ bk :: l2) = analyze_subjects (l1 ++ l2) := by
  constructor
  · intro books s st h
    rw [lookupStat_analyze] at h
    by_cases h3 : 3 ≤ (keyYears (pairs books) s).length
    · rw [if_pos h3] at h
      obtain rfl : mkStat _ _ = st := Option.some.inj h
      rw [totalOcc_eq]
      rfl
    · rw [if_neg h3] at h
      exact absurd h (by simp)
  · intro l1 l2 bk hbk
    have hstep : ∀ m, bookStep m bk = m := by
      intro m; unfold bookStep; rw [hbk]
    unfold analyze_subjects accumulate
    rw [List.foldl_append, List.foldl_append, List.foldl_cons, hstep]

/-- C2 witness: the amended statement at the duplicate-subject record and at
a record with a missing year. -/
theorem C2_witness :
    (mkStat 3 [1990, 1990, 1990]).count = totalOcc [bkDup] robotsS ∧
      analyze_subjects ([] ++ bkNoYear :: []) = analyze_subjects ([] ++ []) :=
  ⟨C2_amended_count.1 [bkDup] robotsS (mkStat 3 [1990, 1990, 1990]) (by rfl),
    C2_amended_count.2 [] [] bkNoYear rfl⟩

/-- C3: the minimum-count threshold of the aggregation: a subject whose
accumulated count is exactly 2 is absent from the result, one whose count
is exactly 3 is present, and every reported stat has count at least 3. -/
theorem C3_threshold :
    (∀ (books : List Book) (s : PyStr), accCount books s = 2 →
        lookupStat (analyze_subjects books) s = none) ∧
      (∀ (books : List Book) (s : PyStr), accCount books s = 3 →
        lookupStat (analyze_subjects books) s =
          some (mkStat 3 (accEntry books s).2)) ∧
      ∀ (books : List Book) (s : PyStr) (st : SubjectStat),
        lookupStat (analyze_subjects books) s = some st → 3 ≤ st.count := by
  refine ⟨?_, ?_, ?_⟩
  · intro books s h
    rw [accCount_eq] at h
    rw [lookupStat_analyze, if_neg (by omega)]
  · intro books s h
    rw [accCount_eq] at h
    rw [lookupStat_analyze, if_pos (by omega), h, accEntry_eq]
  · intro books s st h
    rw [lookupStat_analyze] at h
    by_cases h3 : 3 ≤ (keyYears (pairs books) s).length
    · rw [if_pos h3] at h
      obtain rfl : mkStat _ _ = st := Option.some.inj h
      exact h3
    · rw [if_neg h3] at h
      exact absurd h (by simp)

/-- C3 witness: two records tagged "Robots" leave it unreported; three
records make it appear. -/
theorem C3_witness :
    lookupStat (analyze_subjects bks2) robotsS = none ∧
      lookupStat (analyze_subjects bks3) robotsS =
        some (mkStat 3 (accEntry bks3 robotsS).2) :=
  ⟨C3_threshold.1 bks2 robotsS (by decide),
    C3_threshold.2.1 bks3 robotsS (by decide)⟩

/-- C4 counterexample: a record whose publication year is present but equal
to `0` is skipped by the aggregation loop (`if not year` treats `0` as
missing), so a record with a present year contributes nothing. -/
theorem C4_counterexample :
    bkZero.first_publish_year = some 0 ∧
      filter_subjects bkZero = [robotsS] ∧
      accumulate [bkZero] = [] := by
  refine ⟨rfl, by decide, by decide⟩

/-- C4 amended: the aggregation processes exactly the records whose
publication year is present and nonzero (truthy): a record with a missing
or zero year is skipped entirely, and appending a truthy-year record bumps
each subject's count by its number of listings in the filtered subject list
and appends the year that many times. -/
theorem C4_amended_processing :
    (∀ (l1 l2 : List Book) (bk : Book),
        bk.first_publish_year = none ∨ bk.first_publish_year = some 0 →
        accumulate (l1 ++ bk :: l2) = accumulate (l1 ++ l2)) ∧
      ∀ (books : List Book) (bk : Book) (y : Int) (s : PyStr),
        bk.first_publish_year = some y → y ≠ 0 →
        accEntry (books ++ [bk]) s =
          (accCount books s + (filter_subjects bk).count s,
            (accEntry books s).2 ++
              List.replicate ((filter_subjects bk).count s) y) := by
  constructor
  · intro l1 l2 bk hbk
    have hstep : ∀ m, bookStep m bk = m := by
      intro m
      rcases hbk with h | h
      · unfold bookStep; rw [h]
      · unfold bookStep; rw [h]; simp
    unfold accumulate
    rw [List.foldl_append, List.foldl_append, List.foldl_cons, hstep]
  · intro books bk y s hy h0
    rw [accEntry_eq, accEntry_eq, accCount_eq, pairs_append, keyYears_append]
    rw [show pairs [bk] = pairsOf bk ++ pairs [] from rfl]
    simp only [pairs, List.append_nil]
    rw [keyYears_pairsOf bk y s hy h0]
    simp

/-- C4 witness: the amended statement at a zero-year record and at a
truthy-year record. -/
theorem C4_witness :
    accumulate ([] ++ bkZero :: []) = accumulate ([] ++ []) ∧
      accEntry ([] ++ [bk1977]) robotsS =
        (accCount [] robotsS + (filter_subjects bk1977).count robotsS,
          (accEntry [] robotsS).2 ++
            List.replicate ((filter_subjects bk1977).count robotsS) 1977) :=
  ⟨C4_amended_processing.1 [] [] bkZero (Or.inr rfl),
    C4_amended_processing.2 [] bk1977 1977 robotsS rfl (by decide)⟩

/-- C7: every reported stat satisfies min_year ≤ max_year, and its display
score avg_year is exactly the midpoint (min_year + max_year) / 2 of the
year range (not the mean of all occurrences). -/
theorem C7_stat_invariant (books : List Book) (s : PyStr) (st : SubjectStat)
    (h : lookupStat (analyze_subjects books) s = some st) :
    st.min_year ≤ st.max_year ∧
      st.avg_year = ((st.min_year + st.max_year : Int) : ℚ) / 2 := by
  rw [lookupStat_analyze] at h
  by_cases h3 : 3 ≤ (keyYears (pairs books) s).length
  · rw [if_pos h3] at h
    obtain rfl : mkStat _ _ = st := Option.some.inj h
    have hne : keyYears (pairs books) s ≠ [] := by
      intro h0
      rw [h0] at h3
      simp at h3
    exact ⟨listMin_le_listMax _ hne, rfl⟩
  · rw [if_neg h3] at h
    exact absurd h (by simp)

/-- C7 witness: the invariant at the three-record "Robots" input. -/
theorem C7_witness :
    (mkStat 3 [1977, 1980, 1983]).min_year ≤ (mkStat 3 [1977, 1980, 1983]).max_year ∧
      (mkStat 3 [1977, 1980, 1983]).avg_year =
        (((mkStat 3 [1977, 1980, 1983]).min_year +
            (mkStat 3 [1977, 1980, 1983]).max_year : Int) : ℚ) / 2 :=
  C7_stat_invariant bks3 robotsS (mkStat 3 [1977, 1980, 1983]) (by rfl)

/-! ### Claim theorem: C9 -/

/-- C9: on an empty aggregation result the presentation step produces no
chart and reports a message instead; on a non-empty result it emits a chart
whose rows are the input subjects sorted by ascending display score
avg_year. -/
theorem C9_presentation (subject_data : List (PyStr × SubjectStat)) (title filename : PyStr) :
    (subject_data = [] →
        create_bar_chart subject_data title filename = ([msgNoPlot title], none)) ∧
      (subject_data ≠ [] →
        ∃ ch : Chart,
          create_bar_chart subject_data title filename = ([msgSaved filename], some ch) ∧
            ch.entries = List.insertionSort statLE subject_data ∧
            ch.entries.Sorted statLE ∧
            ch.entries.Perm subject_data) := by
  constructor
  · intro h
    subst h
    rfl
  · intro h
    have hperm := List.perm_insertionSort statLE subject_data
    have hne : ¬(List.insertionSort statLE subject_data).isEmpty = true := by
      intro he
      rw [List.isEmpty_iff] at he
      exact h (he ▸ hperm).symm.eq_nil
    refine ⟨⟨title, List.insertionSort statLE subject_data⟩, ?_, rfl, ?_, hperm⟩
    · unfold create_bar_chart
      rw [if_neg hne]
    · exact List.sorted_insertionSort statLE subject_data

def statEx : SubjectStat := mkStat 3 [1977, 1980, 1983]

/-- C9 witness: the empty result skips rendering; a one-subject result is
rendered sorted. -/
theorem C9_witness :
    create_bar_chart [] (lit "T") (lit "f.png") = ([msgNoPlot (lit "T")], none) ∧
      ∃ ch : Chart,
        create_bar_chart [(robotsS, statEx)] (lit "T") (lit "f.png") =
            ([msgSaved (lit "f.png")], some ch) ∧
          ch.entries = List.insertionSort statLE [(robotsS, statEx)] ∧
          ch.entries.Sorted statLE ∧
          ch.entries.Perm [(robotsS, statEx)] :=
  ⟨(C9_presentation [] (lit "T") (lit "f.png")).1 rfl,
    (C9_presentation [(robotsS, statEx)] (lit "T") (lit "f.png")).2
      (List.cons_ne_nil _ _)⟩

/-! ### C10 infrastructure: stripping a concatenation of generic tokens -/

/-- Concatenation of a list of strings. -/
def cat : List PyStr → PyStr
  | [] => []
  | t :: ts => t ++ cat ts

theorem mem_cat (x : Nat) : ∀ ts : List PyStr, x ∈ cat ts → ∃ t ∈ ts, x ∈ t := by
  intro ts
  induction ts with
  | nil => intro h; simp [cat] at h
  | cons t ts ih =>
      intro h
      rcases List.mem_append.mp h with h | h
      · exact ⟨t, List.mem_cons_self t ts, h⟩
      · obtain ⟨u, hu, hx⟩ := ih h
        exact ⟨u, List.mem_cons_of_mem t hu, hx⟩

theorem isPre_append_self : ∀ u r : PyStr, isPre u (u ++ r) = true := by
  intro u
  induction u with
  | nil => intro r; rfl
  | cons a u ih => intro r; simp [isPre, ih r]

/-- A prefix of a concatenation is a prefix of the first part, or extends it. -/
theorem isPre_split : ∀ pat v r : PyStr, isPre pat (v ++ r) = true →
    isPre pat v = true ∨ isPre v pat = true := by
  intro pat
  induction pat with
  | nil => intro v r _; exact Or.inl rfl
  | cons a as ih =>
      intro v r h
      match v with
      | [] => exact Or.inr rfl
      | b :: bs =>
          rw [List.cons_append, isPre, Bool.and_eq_true] at h
          have hab : a = b := by simpa using h.1
          subst hab
          rcases ih bs r h.2 with h2 | h2
          · exact Or.inl (by simp [isPre, h2])
          · exact Or.inr (by simp [isPre, h2])

/-- No occurrence of the pattern starts inside the token `t` (neither fully
inside it nor crossing its right boundary). -/
def SepTok (pat t : PyStr) : Prop :=
  ∀ i, i < t.length →
    isPre pat (List.drop i t) = false ∧ isPre (List.drop i t) pat = false

instance (pat t : PyStr) : Decidable (SepTok pat t) := by
  unfold SepTok
  infer_instance

/-- Scanning a separated token copies it unchanged. -/
theorem repAux_skip_tok (pat : PyStr) :
    ∀ (u r : PyStr), SepTok pat u → repAux pat (u ++ r) 0 = u ++ repAux pat r 0 := by
  intro u
  induction u with
  | nil => intro r _; rfl
  | cons c u ih =>
      intro r hsep
      have h0 := hsep 0 (by simp)
      rw [List.drop_zero] at h0
      have hguard : isPre pat (c :: (u ++ r)) = false := by
        cases hg : isPre pat (c :: (u ++ r)) with
        | false => rfl
        | true =>
            have hg' : isPre pat ((c :: u) ++ r) = true := by
              rw [List.cons_append]
              exact hg
            rcases isPre_split pat (c :: u) r hg' with h | h
            · rw [h0.1] at h
              exact absurd h (by simp)
            · rw [h0.2] at h
              exact absurd h (by simp)
      have hsep' : SepTok pat u := by
        intro i hi
        have := hsep (i + 1) (by simpa using Nat.succ_lt_succ hi)
        simpa using this
      rw [List.cons_append, repAux, hguard]
      simp only [Bool.and_false]
      rw [if_neg (by simp), ih r hsep']
      rfl

/-- Skipping `v.length` characters consumes exactly `v`. -/
theorem repAux_skip_count (pat : PyStr) :
    ∀ (v r : PyStr), repAux pat (v ++ r) v.length = repAux pat r 0 := by
  intro v
  induction v with
  | nil => intro r; rfl
  | cons c v ih => intro r; rw [List.cons_append, List.length_cons, repAux, ih r]

/-- A whole-token occurrence of the pattern is removed. -/
theorem repAux_match (pat : PyStr) (hp : pat ≠ []) (rest : PyStr) :
    repAux pat (pat ++ rest) 0 = repAux pat rest 0 := by
  match pat, hp with
  | a :: as, _ =>
      rw [List.cons_append, repAux]
      have hg : (!(a :: as).isEmpty && isPre (a :: as) (a :: (as ++ rest))) = true := by
        rw [← List.cons_append, isPre_append_self]
        rfl
      rw [hg]
      simp only [if_true]
      rw [show (a :: as).length - 1 = as.length from rfl, repAux_skip_count]

/-- Removing a phrase from a concatenation of tokens each of which is the
phrase itself or separated from it deletes exactly the phrase tokens. -/
theorem replaceAll_cat (pat : PyStr) (hp : pat ≠ []) :
    ∀ ts : List PyStr, (∀ t ∈ ts, t = pat ∨ (t ≠ pat ∧ SepTok pat t)) →
      replaceAll pat (cat ts) = cat (ts.filter (fun t => !decide (t = pat))) := by
  intro ts
  induction ts with
  | nil => intro _; rfl
  | cons t ts ih =>
      intro h
      have hts : ∀ u ∈ ts, u = pat ∨ (u ≠ pat ∧ SepTok pat u) :=
        fun u hu => h u (List.mem_cons_of_mem t hu)
      rcases h t (List.mem_cons_self t ts) with heq | ⟨hne, hsep⟩
      · rw [heq, show cat (pat :: ts) = pat ++ cat ts from rfl,
          show replaceAll pat (pat ++ cat ts) = repAux pat (pat ++ cat ts) 0 from rfl,
          repAux_match pat hp, show repAux pat (cat ts) 0 = replaceAll pat (cat ts) from rfl,
          ih hts, List.filter_cons]
        simp
      · show replaceAll pat (t ++ cat ts) = _
        rw [show replaceAll pat (t ++ cat ts) = repAux pat (t ++ cat ts) 0 from rfl,
          repAux_skip_tok pat t (cat ts) hsep,
          show repAux pat (cat ts) 0 = replaceAll pat (cat ts) from rfl,
          ih hts, List.filter_cons]
        simp [hne, cat]

/-- A single character different from the head of a nonempty pattern is
separated from the pattern. -/
theorem sepTok_singleton (a : Nat) (as : List Nat) (c : Nat) (hc : c ≠ a) :
    SepTok (a :: as) [c] := by
  intro i hi
  have h0 : i = 0 := Nat.lt_one_iff.mp (by simpa using hi)
  subst h0
  rw [List.drop_zero]
  constructor
  · cases as with
    | nil => simp [isPre, Ne.symm hc]
    | cons a2 as2 => simp [isPre, Ne.symm hc]
  · simp [isPre, hc]

/-- A token that consists of one of the five generic phrases (in lowercase),
one punctuation character, or one whitespace character. -/
def goodTokB (t : PyStr) : Bool :=
  t == phrase1 || t == phrase2 || t == phrase3 || t == phrase4 || t == phrase5 ||
    (match t with
     | [c] => isPunct c || isSpace c
     | _ => false)

theorem goodTokB_cases (t : PyStr) (h : goodTokB t = true) :
    t = phrase1 ∨ t = phrase2 ∨ t = phrase3 ∨ t = phrase4 ∨ t = phrase5 ∨
      ∃ c, t = [c] ∧ (isPunct c = true ∨ isSpace c = true) := by
  simp only [goodTokB, Bool.or_eq_true, beq_iff_eq] at h
  rcases h with ((((h | h) | h) | h) | h) | h
  any_goals tauto
  match t, h with
  | [c], h => exact .inr (.inr (.inr (.inr (.inr ⟨c, rfl, by simpa using h⟩))))

/-- A punctuation or whitespace character differs from every phrase that
starts with a lowercase letter, and is separated from it. -/
theorem sep_singleton (pat : PyStr) (a : Nat) (as : List Nat)
    (hpat : pat = a :: as) (ha : 97 ≤ a ∧ a ≤ 122) (hlen : 2 ≤ pat.length)
    (c : Nat) (hc : isPunct c = true ∨ isSpace c = true) :
    [c] ≠ pat ∧ SepTok pat [c] := by
  have hca : c ≠ a := by
    rcases hc with h | h <;>
      · simp only [isPunct, isSpace, Bool.or_eq_true, Bool.and_eq_true,
          decide_eq_true_eq, beq_iff_eq] at h
        omega
  constructor
  · intro he
    have hl := congrArg List.length he
    simp at hl
    omega
  · rw [hpat]
    exact sepTok_singleton a as c hca

theorem pass_condition1 (t : PyStr) (ht : goodTokB t = true) :
    t = phrase1 ∨ (t ≠ phrase1 ∧ SepTok phrase1 t) := by
  rcases goodTokB_cases t ht with rfl | rfl | rfl | rfl | rfl | ⟨c, rfl, hc⟩
  · exact Or.inl rfl
  · exact Or.inr ⟨by decide, by decide⟩
  · exact Or.inr ⟨by decide, by decide⟩
  · exact Or.inr ⟨by decide, by decide⟩
  · exact Or.inr ⟨by decide, by decide⟩
  · exact Or.inr (sep_singleton phrase1 115 (lit "cience fiction")
      (by decide) (by decide) (by decide) c hc)

theorem pass_condition2 (t : PyStr) (ht : goodTokB t = true) (h1 : t ≠ phrase1) :
    t = phrase2 ∨ (t ≠ phrase2 ∧ SepTok phrase2 t) := by
  rcases goodTokB_cases t ht with rfl | rfl | rfl | rfl | rfl | ⟨c, rfl, hc⟩
  · exact absurd rfl h1
  · exact Or.inl rfl
  · exact Or.inr ⟨by decide, by decide⟩
  · exact Or.inr ⟨by decide, by decide⟩
  · exact Or.inr ⟨by decide, by decide⟩
  · exact Or.inr (sep_singleton phrase2 115 (lit "cience-fiction")
      (by decide) (by decide) (by decide) c hc)

theorem pass_condition3 (t : PyStr) (ht : goodTokB t = true)
    (h1 : t ≠ phrase1) (h2 : t ≠ phrase2) :
    t = phrase3 ∨ (t ≠ phrase3 ∧ SepTok phrase3 t) := by
  rcases goodTokB_cases t ht with rfl | rfl | rfl | rfl | rfl | ⟨c, rfl, hc⟩
  · exact absurd rfl h1
  · exact absurd rfl h2
  · exact Or.inl rfl
  · exact Or.inr ⟨by decide, by decide⟩
  · exact Or.inr ⟨by decide, by decide⟩
  · exact Or.inr (sep_singleton phrase3 102 (lit "iction")
      (by decide) (by decide) (by decide) c hc)

theorem pass_condition4 (t : PyStr) (ht : goodTokB t = true)
    (h1 : t ≠ phrase1) (h2 : t ≠ phrase2) (h3 : t ≠ phrase3) :
    t = phrase4 ∨ (t ≠ phrase4 ∧ SepTok phrase4 t) := by
  rcases goodTokB_cases t ht with rfl | rfl | rfl | rfl | rfl | ⟨c, rfl, hc⟩
  · exact absurd rfl h1
  · exact absurd rfl h2
  · exact absurd rfl h3
  · exact Or.inl rfl
  · exact Or.inr ⟨by decide, by decide⟩
  · exact Or.inr (sep_singleton phrase4 115 (lit "pace opera")
      (by decide) (by decide) (by decide) c hc)

theorem pass_condition5 (t : PyStr) (ht : goodTokB t = true)
    (h1 : t ≠ phrase1) (h2 : t ≠ phrase2) (h3 : t ≠ phrase3) (h4 : t ≠ phrase4) :
    t = phrase5 ∨ (t ≠ phrase5 ∧ SepTok phrase5 t) := by
  rcases goodTokB_cases t ht with rfl | rfl | rfl | rfl | rfl | ⟨c, rfl, hc⟩
  · exact absurd rfl h1
  · exact absurd rfl h2
  · exact absurd rfl h3
  · exact absurd rfl h4
  · exact Or.inl rfl
  · exact Or.inr (sep_singleton phrase5 103 (lit "eneral")
      (by decide) (by decide) (by decide) c hc)

/-- Stripping the five generic phrases from a concatenation of generic
tokens leaves a concatenation of single punctuation/whitespace characters. -/
theorem stripGeneric_cat (ts : List PyStr) (h : ∀ t ∈ ts, goodTokB t = true) :
    ∃ us : List PyStr,
      stripGeneric (cat ts) = cat us ∧
        ∀ u ∈ us, ∃ c, u = [c] ∧ (isPunct c = true ∨ isSpace c = true) := by
  refine ⟨((((ts.filter (fun t => !decide (t = phrase1))).filter
      (fun t => !decide (t = phrase2))).filter
      (fun t => !decide (t = phrase3))).filter
      (fun t => !decide (t = phrase4))).filter
      (fun t => !decide (t = phrase5)), ?_, ?_⟩
  · unfold stripGeneric
    rw [replaceAll_cat phrase1 (by decide) ts
      (fun t ht => pass_condition1 t (h t ht))]
    rw [replaceAll_cat phrase2 (by decide) _
      (fun t ht => by
        have h1 := List.mem_filter.mp ht
        exact pass_condition2 t (h t h1.1) (by simpa using h1.2))]
    rw [replaceAll_cat phrase3 (by decide) _
      (fun t ht => by
        have h2 := List.mem_filter.mp ht
        have h1 := List.mem_filter.mp h2.1
        exact pass_condition3 t (h t h1.1) (by simpa using h1.2)
          (by simpa using h2.2))]
    rw [replaceAll_cat phrase4 (by decide) _
      (fun t ht => by
        have h3 := List.mem_filter.mp ht
        have h2 := List.mem_filter.mp h3.1
        have h1 := List.mem_filter.mp h2.1
        exact pass_condition4 t (h t h1.1) (by simpa using h1.2)
          (by simpa using h2.2) (by simpa using h3.2))]
    rw [replaceAll_cat phrase5 (by decide) _
      (fun t ht => by
        have h4 := List.mem_filter.mp ht
        have h3 := List.mem_filter.mp h4.1
        have h2 := List.mem_filter.mp h3.1
        have h1 := List.mem_filter.mp h2.1
        exact pass_condition5 t (h t h1.1) (by simpa using h1.2)
          (by simpa using h2.2) (by simpa using h3.2) (by simpa using h4.2))]
  · intro u hu
    have h5 := List.mem_filter.mp hu
    have h4 := List.mem_filter.mp h5.1
    have h3 := List.mem_filter.mp h4.1
    have h2 := List.mem_filter.mp h3.1
    have h1 := List.mem_filter.mp h2.1
    rcases goodTokB_cases u (h u h1.1) with rfl | rfl | rfl | rfl | rfl | hc
    · have hne : phrase1 ≠ phrase1 := by simpa using h1.2
      exact absurd rfl hne
    · have hne : phrase2 ≠ phrase2 := by simpa using h2.2
      exact absurd rfl hne
    · have hne : phrase3 ≠ phrase3 := by simpa using h3.2
      exact absurd rfl hne
    · have hne : phrase4 ≠ phrase4 := by simpa using h4.2
      exact absurd rfl hne
    · have hne : phrase5 ≠ phrase5 := by simpa using h5.2
      exact absurd rfl hne
    · exact hc

theorem dropWhile_all (l : PyStr) (h : ∀ x ∈ l, isSpace x = true) :
    l.dropWhile isSpace = [] := by
  induction l with
  | nil => rfl
  | cons c cs ih =>
      rw [List.dropWhile_cons, if_pos (h c (List.mem_cons_self c cs))]
      exact ih (fun x hx => h x (List.mem_cons_of_mem c hx))

theorem pyStrip_all_space (l : PyStr) (h : ∀ x ∈ l, isSpace x = true) :
    pyStrip l = [] := by
  unfold pyStrip
  rw [dropWhile_all l h]
  rfl

/-- A concatenation of generic lowercase tokens is semantically empty:
rule 6 of the subject filter fires on it. -/
theorem rule6_cat (ts : List PyStr) (h : ∀ t ∈ ts, goodTokB t = true) :
    (pyStrip (removePunct (stripGeneric (cat ts)))).isEmpty = true := by
  obtain ⟨us, heq, hus⟩ := stripGeneric_cat ts h
  rw [heq]
  have hall : ∀ x ∈ removePunct (cat us), isSpace x = true := by
    intro x hx
    rw [removePunct, List.mem_filter] at hx
    obtain ⟨t, ht, hxt⟩ := mem_cat x us hx.1
    obtain ⟨c, rfl, hc⟩ := hus t ht
    have hxc : x = c := by simpa using hxt
    subst hxc
    rcases hc with hpc | hsc
    · have : ¬isPunct x = true := by simpa using hx.2
      exact absurd hpc this
    · exact hsc
  rw [pyStrip_all_space _ hall]
  rfl

theorem pyLower_append (a b : PyStr) : pyLower (a ++ b) = pyLower a ++ pyLower b :=
  List.map_append lowerN a b

theorem pyLower_cat : ∀ ts : List PyStr, pyLower (cat ts) = cat (ts.map pyLower) := by
  intro ts
  induction ts with
  | nil => rfl
  | cons t ts ih =>
      rw [show cat (t :: ts) = t ++ cat ts from rfl, pyLower_append, ih, List.map_cons]
      rfl

/-! ### Claim theorem: C10 -/

/-- C10: any subject made up solely of the generic genre phrases (in any
letter case), punctuation characters and whitespace — the empty subject
included — is removed by the filter, and therefore never appears in a
record's filtered subject list. -/
theorem C10_generic_only (ts : List PyStr)
    (h : ∀ t ∈ ts, goodTokB (pyLower t) = true) :
    should_remove_subject (cat ts) = true ∧
      ∀ book : Book, cat ts ∉ filter_subjects book := by
  have hr6 : (pyStrip (removePunct (stripGeneric (pyLower (cat ts))))).isEmpty = true := by
    rw [pyLower_cat]
    refine rule6_cat (ts.map pyLower) ?_
    intro t ht
    obtain ⟨u, hu, rfl⟩ := List.mem_map.mp ht
    exact h u hu
  have hsr : should_remove_subject (cat ts) = true := by
    simp only [should_remove_subject, hr6, Bool.or_true]
  refine ⟨hsr, ?_⟩
  intro book hmem
  rw [filter_subjects_eq] at hmem
  have hkeep := (List.mem_filter.mp hmem).2
  rw [hsr] at hkeep
  exact absurd hkeep (by simp)

/-- C10 witness: a mixed-case concatenation of generic phrases with
punctuation and whitespace is removed, and so is the empty subject. -/
theorem C10_witness :
    should_remove_subject
        (cat [lit "Science Fiction", lit ",", lit " ", lit "General"]) = true ∧
      should_remove_subject (cat ([] : List PyStr)) = true :=
  ⟨(C10_generic_only [lit "Science Fiction", lit ",", lit " ", lit "General"]
      (by decide)).1,
    (C10_generic_only [] (by simp)).1⟩
